import Mathlib

/-!
Verification of the package-automator repository.

The JavaScript sources are embedded shallowly:
  * JS objects (string-keyed, insertion-ordered) become association lists
    `List (String × α)`; property read is `assocGet` (first binding) and
    property assignment is `assocSet` (replace in place, else append),
    matching JS object semantics for objects with unique keys.
  * `semver.valid`/`semver.major|minor|patch` are modelled by `semverParse`,
    which covers the numeric `X.Y.Z` core of the semver grammar, and
    `semver.coerce` by `semverCoerce` (first digit run, with optional
    `.minor` and `.patch` runs).
  * Async code is pure: registry lookups become a function
    `String → Option String` (`none` = rejected promise / lookup failure),
    and file mutation becomes explicit manifest-state passing.
-/

namespace PackageAutomator

/-- Property read on a JS object modelled as an association list:
the first binding for the key, `none` when the property is absent. -/
def assocGet {α : Type} : List (String × α) → String → Option α
  | [], _ => none
  | (k', v) :: rest, k => if k' = k then some v else assocGet rest k

/-- Property assignment on a JS object: replace the first binding in place
(JS objects keep the original insertion position on re-assignment),
append a new binding when the key is absent. -/
def assocSet {α : Type} : List (String × α) → String → α → List (String × α)
  | [], k, v => [(k, v)]
  | (k', v') :: rest, k, v =>
      if k' = k then (k, v) :: rest else (k', v') :: assocSet rest k v

/-- A parsed semantic-version triple (the `(major, minor, patch)` core). -/
structure SemVer where
  major : Nat
  minor : Nat
  patch : Nat
deriving DecidableEq

/-- Digit run to its numeric value. -/
def digitsToNat (cs : List Char) : Nat :=
  cs.foldl (fun n c => 10 * n + (c.toNat - '0'.toNat)) 0

/-- Split a character list on `'.'` (every occurrence, like `String.prototype.split`). -/
def splitOnDot : List Char → List (List Char)
  | [] => [[]]
  | c :: rest =>
      if c = '.' then [] :: splitOnDot rest
      else
        match splitOnDot rest with
        | [] => [[c]]
        | p :: ps => (c :: p) :: ps

/-- A non-empty all-digit component, else `none`. -/
def parseNatChars (cs : List Char) : Option Nat :=
  if cs ≠ [] ∧ cs.all Char.isDigit then some (digitsToNat cs) else none

/-- `semver.valid` + component extraction, restricted to the numeric core:
exactly three dot-separated non-empty digit components. -/
def semverParse (s : String) : Option SemVer :=
  match (splitOnDot s.data).map parseNatChars with
  | [some a, some b, some c] => some ⟨a, b, c⟩
  | _ => none

/-- Longest leading digit run and the remaining characters. -/
def takeDigits : List Char → List Char × List Char
  | [] => ([], [])
  | c :: rest =>
      if c.isDigit then
        let (d, r) := takeDigits rest
        (c :: d, r)
      else ([], c :: rest)

/-- One optional `.digits` component of `semver.coerce`'s pattern:
consumed only when a `'.'` is immediately followed by at least one digit. -/
def coerceComp (cs : List Char) : Nat × List Char :=
  match cs with
  | '.' :: rest =>
      let (d, r) := takeDigits rest
      if d = [] then (0, '.' :: rest) else (digitsToNat d, r)
  | _ => (0, cs)

/-- Drop characters up to the first digit; `none` when there is none. -/
def findFirstDigit : List Char → Option (List Char)
  | [] => none
  | c :: rest => if c.isDigit then some (c :: rest) else findFirstDigit rest

/-- `semver.coerce`: the first digit run is the major version, an optional
`.digits` gives the minor and another the patch, missing components are 0. -/
def semverCoerce (s : String) : Option SemVer :=
  match findFirstDigit s.data with
  | none => none
  | some cs =>
      let (maj, r1) := takeDigits cs
      let (minr, r2) := coerceComp r1
      let (pat, _) := coerceComp r2
      some ⟨digitsToNat maj, minr, pat⟩

/-- `comparator.getUpdateType` (src/comparator.js): `'unknown'` when either
string is not a valid semver, otherwise the first of major/minor/patch at
which `latest`'s component strictly exceeds `installed`'s, else `'current'`. -/
def getUpdateType (installed latest : String) : String :=
  match semverParse installed, semverParse latest with
  | some i, some l =>
      if l.major > i.major then "major"
      else if l.minor > i.minor then "minor"
      else if l.patch > i.patch then "patch"
      else "current"
  | _, _ => "unknown"

/-- One entry of `comparator.compareVersions`' result object. -/
structure CompResult where
  installed : String
  latest : Option String
  updateType : String
  canAutoUpdate : Bool
deriving DecidableEq

/-- The body of `comparator.compareVersions`' loop for one package: a falsy
registry value (`undefined`, `null` or `""`) yields `'unknown'`, raw string
equality yields `'current'`, otherwise `getUpdateType` classifies and
`canAutoUpdate = (updateType === 'patch')`. -/
def compareOne (latestVersions : List (String × Option String))
    (p : String × String) : String × CompResult :=
  let name := p.1
  let installed := p.2
  match assocGet latestVersions name with
  | some (some l) =>
      if l = "" then (name, ⟨installed, none, "unknown", false⟩)
      else if installed = l then (name, ⟨installed, some l, "current", false⟩)
      else (name, ⟨installed, some l, getUpdateType installed l,
                   getUpdateType installed l == "patch"⟩)
  | _ => (name, ⟨installed, none, "unknown", false⟩)

/-- `comparator.compareVersions` (src/comparator.js): iterate the installed
map, comparing each entry against the registry's latest-version map. -/
def compareVersions (installedVersions : List (String × String))
    (latestVersions : List (String × Option String)) : List (String × CompResult) :=
  installedVersions.map (compareOne latestVersions)

/-- Result of `goAnalyzer.checkGoVersionUpdate`. -/
structure GoUpdateCheck where
  updateType : String
  canAutoUpdate : Bool
deriving DecidableEq

/-- `goAnalyzer.checkGoVersionUpdate` (src/go-analyzer.js): coerce both
versions; `'unknown'` when either fails to coerce, `'current'` on equal
coerced triples, otherwise the first of major/minor/patch at which the
current component is strictly below the latest one, else `'unknown'`. -/
def checkGoVersionUpdate (currentVersion latestVersion : String) : GoUpdateCheck :=
  match semverCoerce currentVersion, semverCoerce latestVersion with
  | some current, some latest =>
      if current = latest then ⟨"current", false⟩
      else if current.major < latest.major then ⟨"major", false⟩
      else if current.minor < latest.minor then ⟨"minor", false⟩
      else if current.patch < latest.patch then ⟨"patch", true⟩
      else ⟨"unknown", false⟩
  | _, _ => ⟨"unknown", false⟩

/-- The classification the specification describes: the first component, in
the order major then minor then patch, at which the two triples differ
(in either direction), `'current'` on equal triples. -/
def firstDiffClass (a b : SemVer) : String :=
  if a.major ≠ b.major then "major"
  else if a.minor ≠ b.minor then "minor"
  else if a.patch ≠ b.patch then "patch"
  else "current"

/-- Lexicographic order on triples: the direction `installed ≤ latest`
actually used by the pipeline's callers. -/
def lexLe (a b : SemVer) : Prop :=
  a.major < b.major ∨
    (a.major = b.major ∧
      (a.minor < b.minor ∨ (a.minor = b.minor ∧ a.patch ≤ b.patch)))

instance (a b : SemVer) : Decidable (lexLe a b) := by
  unfold lexLe; infer_instance

/-- `comparator.getAutoUpdatePackages` (src/comparator.js): the names with
`canAutoUpdate`, mapped to `result.latest`; the JS value is the raw
`latest` property, which template-literal interpolation later renders as
the string `"null"` when it is `null`. -/
def getAutoUpdatePackages (results : List (String × CompResult)) :
    List (String × String) :=
  results.filterMap fun p =>
    if p.2.canAutoUpdate then some (p.1, p.2.latest.getD "null") else none

/-- `comparator.getManualUpdatePackages` (src/comparator.js). -/
def getManualUpdatePackages (results : List (String × CompResult)) :
    List (String × CompResult) :=
  results.filterMap fun p =>
    if p.2.updateType = "minor" ∨ p.2.updateType = "major" then some p else none

/-- A parsed `package.json`: the three dependency sections, each possibly
absent (`none` = the property is missing, so its JS truthiness test fails). -/
structure PackageJson where
  dependencies : Option (List (String × String))
  devDependencies : Option (List (String × String))
  optionalDependencies : Option (List (String × String))
deriving DecidableEq

/-- `Object.assign(target, source)`: assign every binding of `source` onto
`target` in order. -/
def objAssign {α : Type} (target source : List (String × α)) :
    List (String × α) :=
  source.foldl (fun t p => assocSet t p.1 p.2) target

/-- `analyzer.extractDependencies` (src/analyzer.js): merge the three
sections into one object, later sections overwriting earlier ones. -/
def extractDependencies (pkg : PackageJson) : List (String × String) :=
  let d0 : List (String × String) := []
  let d1 := match pkg.dependencies with
    | some sec => objAssign d0 sec
    | none => d0
  let d2 := match pkg.devDependencies with
    | some sec => objAssign d1 sec
    | none => d1
  match pkg.optionalDependencies with
  | some sec => objAssign d2 sec
  | none => d2

/-- One entry of a `package-lock.json` section; `version` is `none` when the
entry has no `version` property. -/
structure LockEntry where
  version : Option String
deriving DecidableEq

/-- A parsed `package-lock.json`: the v1 `dependencies` section and the
npm-v7+ `packages` section, each possibly absent. -/
structure PackageLock where
  dependencies : Option (List (String × LockEntry))
  packages : Option (List (String × LockEntry))
deriving DecidableEq

/-- The range-operator characters removed by the source's global
`replace` over the character class caret, tilde, `>`, `=`, `<`. -/
def rangeChars : List Char := ['^', '~', '>', '=', '<']

/-- Remove every occurrence of a range-operator character. -/
def stripRange (s : String) : String :=
  ⟨s.data.filter (fun c => !(rangeChars.contains c))⟩

/-- `analyzer.getInstalledVersions` (src/analyzer.js): with no lock, strip
range operators from every declared range; with a v1 lock use its
`dependencies` entries (falling back to the stripped range when the entry
or its `version` is missing or falsy); otherwise with a v7+ lock use its
`packages` entries keyed `node_modules/<name>`; with a lock that has
neither section, the result object is left empty. -/
def getInstalledVersions (packageLock : Option PackageLock)
    (dependencies : List (String × String)) : List (String × String) :=
  let packageNames := dependencies.map Prod.fst
  let fallbackValue := fun (name : String) =>
    stripRange ((assocGet dependencies name).getD "")
  match packageLock with
  | none => packageNames.map fun name => (name, fallbackValue name)
  | some lock =>
      match lock.dependencies with
      | some lockDeps =>
          packageNames.map fun name =>
            (name,
              match assocGet lockDeps name with
              | some entry =>
                  match entry.version with
                  | some v => if v = "" then fallbackValue name else v
                  | none => fallbackValue name
              | none => fallbackValue name)
      | none =>
          match lock.packages with
          | some lockPkgs =>
              packageNames.map fun name =>
                (name,
                  match assocGet lockPkgs ("node_modules/" ++ name) with
                  | some entry =>
                      match entry.version with
                      | some v => if v = "" then fallbackValue name else v
                      | none => fallbackValue name
                  | none => fallbackValue name)
          | none => []

/-- The value recorded for one settled registry lookup
(`Promise.allSettled` outcome inspection): a fulfilled truthy value is
kept, a rejected lookup or a falsy value records `null`. -/
def settledValue (r : Option String) : Option String :=
  match r with
  | some v => if v = "" then none else some v
  | none => none

/-- The batch loop of `analyzer.fetchLatestVersions`, structurally recursive
on a fuel bounded below by the list length (each step consumes at least one
name, so the fuel-exhausted branch is never reached from
`fetchLatestVersions`). -/
def fetchBatchesAux (fetchInfo : String → Option String) :
    Nat → List String → List (String × Option String)
  | _, [] => []
  | 0, _ :: _ => []
  | fuel + 1, n :: rest =>
      let names := n :: rest
      (names.take 10).map (fun m => (m, settledValue (fetchInfo m))) ++
        fetchBatchesAux fetchInfo fuel (names.drop 10)

/-- `analyzer.fetchLatestVersions` (src/analyzer.js): process names in
batches of 10; each lookup settles independently (`fetchInfo` returns
`none` for a rejected promise), so no failure aborts a batch; the
inter-batch 500ms delay is timing only and has no effect on the result. -/
def fetchLatestVersions (packageNames : List String)
    (fetchInfo : String → Option String) : List (String × Option String) :=
  fetchBatchesAux fetchInfo packageNames.length packageNames

/-- One recorded entry of `updatedDependencies` in
`updater.updatePackageJson`: the section name (`type`), the recorded `from`
value (`fromV`, the JS property `from`) and the new value (`toV`, the JS property `to`). -/
structure UpdRec where
  type : String
  fromV : String
  toV : String
deriving DecidableEq

/-- One iteration of a section loop of `updater.updatePackageJson`: guard on
the current truthiness of `section[packageName]`, assign the caret-prefixed
version, then build the record whose `from` reads the property again —
exactly the source's read-after-write order. -/
def updateSectionStep (sectionName : String)
    (st : List (String × String) × List (String × UpdRec))
    (p : String × String) : List (String × String) × List (String × UpdRec) :=
  match assocGet st.1 p.1 with
  | some cur =>
      if cur = "" then st
      else
        let newValue := "^" ++ p.2
        let section1 := assocSet st.1 p.1 newValue
        let fromValue := (assocGet section1 p.1).getD ""
        (section1, assocSet st.2 p.1 ⟨sectionName, fromValue, newValue⟩)
  | none => st

/-- One full section loop (`for (const packageName in packagesToUpdate)`)
over one dependency section, threading the shared `updatedDependencies`
accumulator. -/
def updateSectionLoop (sectionName : String)
    (packagesToUpdate : List (String × String))
    (sec : List (String × String)) (acc : List (String × UpdRec)) :
    List (String × String) × List (String × UpdRec) :=
  packagesToUpdate.foldl (updateSectionStep sectionName) (sec, acc)

/-- Result of `updater.updatePackageJson`: the rewritten manifest (the
whole-file write is modelled by returning the new manifest value) and the
`updatedDependencies` object. -/
structure UpdateJsonResult where
  packageJson : PackageJson
  updatedDependencies : List (String × UpdRec)
deriving DecidableEq

/-- `updater.updatePackageJson` (src/updater.js): run the three section
loops in order — `dependencies`, `devDependencies`, `optionalDependencies`
— each skipped entirely when its section is absent, all three sharing one
`updatedDependencies` object. -/
def updatePackageJson (pkg : PackageJson)
    (packagesToUpdate : List (String × String)) : UpdateJsonResult :=
  let s1 : Option (List (String × String)) × List (String × UpdRec) :=
    match pkg.dependencies with
    | some sec =>
        let r := updateSectionLoop "dependencies" packagesToUpdate sec []
        (some r.1, r.2)
    | none => (none, [])
  let s2 : Option (List (String × String)) × List (String × UpdRec) :=
    match pkg.devDependencies with
    | some sec =>
        let r := updateSectionLoop "devDependencies" packagesToUpdate sec s1.2
        (some r.1, r.2)
    | none => (none, s1.2)
  let s3 : Option (List (String × String)) × List (String × UpdRec) :=
    match pkg.optionalDependencies with
    | some sec =>
        let r := updateSectionLoop "optionalDependencies" packagesToUpdate sec s2.2
        (some r.1, r.2)
    | none => (none, s2.2)
  ⟨⟨s1.1, s2.1, s3.1⟩, s3.2⟩

/-- Result of `updater.updatePackages`: the `updated` flag, the recorded
`updatedDependencies`, and the manifest file state after the call (threaded
explicitly; the best-effort `npm install` lock regeneration and the
`repository`/`message` echo fields are I/O and logging only). -/
structure UpdateResult where
  updated : Bool
  updatedDependencies : List (String × UpdRec)
  manifest : PackageJson
deriving DecidableEq

/-- `updater.updatePackages` (src/updater.js): an empty approved map
returns early with `updated:false` and an empty changed-set, otherwise the
manifest is rewritten by `updatePackageJson`. -/
def updatePackages (manifest : PackageJson)
    (packagesToUpdate : List (String × String)) : UpdateResult :=
  if packagesToUpdate.length = 0 then ⟨false, [], manifest⟩
  else
    let r := updatePackageJson manifest packagesToUpdate
    ⟨true, r.updatedDependencies, r.packageJson⟩

/-- A repository discovered by the scanner, as the reporter sees it. -/
structure Repository where
  path : String
  type : String
deriving DecidableEq

/-- `path.basename` for the slash-separated paths the scanner produces
(paths without a trailing slash). -/
def basename (s : String) : String :=
  ⟨(s.data.reverse.takeWhile (fun c => !(c = '/'))).reverse⟩

/-- One entry of the report's `autoUpdatePackages` / `manualUpdatePackages`
buckets: built from `result.installed`, `result.latest` and
`result.updateType`. -/
structure BucketEntry where
  fromV : String
  toV : Option String
  updateType : String
deriving DecidableEq

/-- The state of the categorisation loop: the current bucket (which stores
the `version` property of its entry object), the auto-update bucket and the
manual-update bucket. -/
abbrev Buckets :=
  List (String × String) × List (String × BucketEntry) ×
    List (String × BucketEntry)

/-- One iteration of the categorisation loop of
`reporter.generateRepositoryReport`: `'current'` first, then
`canAutoUpdate`, then `'minor'`/`'major'`; anything else (the `'unknown'`
results) is assigned to no bucket. -/
def categorizeStep (st : Buckets) (p : String × CompResult) : Buckets :=
  let r := p.2
  if r.updateType = "current" then
    (assocSet st.1 p.1 r.installed, st.2.1, st.2.2)
  else if r.canAutoUpdate then
    (st.1, assocSet st.2.1 p.1 ⟨r.installed, r.latest, r.updateType⟩, st.2.2)
  else if r.updateType = "minor" ∨ r.updateType = "major" then
    (st.1, st.2.1, assocSet st.2.2 p.1 ⟨r.installed, r.latest, r.updateType⟩)
  else st

/-- The full categorisation loop of `reporter.generateRepositoryReport`. -/
def categorizeResults (results : List (String × CompResult)) : Buckets :=
  results.foldl categorizeStep ([], [], [])

/-- A per-repository report (`reporter.generateRepositoryReport`'s result;
the conditional `updateResults` echo object, which copies updater fields
verbatim, is not needed by any claim and is omitted). -/
structure RepoReport where
  path : String
  name : String
  type : String
  packageCount : Nat
  autoUpdateCount : Nat
  manualUpdateCount : Nat
  currentCount : Nat
  autoUpdated : Bool
  autoUpdatePackages : List (String × BucketEntry)
  manualUpdatePackages : List (String × BucketEntry)
  currentPackages : List (String × String)
deriving DecidableEq

/-- `reporter.generateRepositoryReport` (src/reporter.js). -/
def generateRepositoryReport (repository : Repository)
    (comparisonResults : List (String × CompResult))
    (updateResults : Option UpdateResult) : RepoReport :=
  let buckets := categorizeResults comparisonResults
  { path := repository.path
    name := basename repository.path
    type := if repository.type = "" then "npm" else repository.type
    packageCount := comparisonResults.length
    autoUpdateCount := buckets.2.1.length
    manualUpdateCount := buckets.2.2.length
    currentCount := buckets.1.length
    autoUpdated := match updateResults with
      | some u => u.updated
      | none => false
    autoUpdatePackages := buckets.2.1
    manualUpdatePackages := buckets.2.2
    currentPackages := buckets.1 }

/-- A JS number that is either an actual (non-negative integral) value or
`NaN`; adding `undefined` to a number yields `NaN`, and `NaN` is absorbing. -/
inductive JSNum where
  | nan : JSNum
  | num : Nat → JSNum
deriving DecidableEq

/-- JS `+` on numbers, with `NaN` absorbing. -/
def jsAdd : JSNum → JSNum → JSNum
  | .num a, .num b => .num (a + b)
  | _, _ => .nan

/-- JS `acc += field` where the property may be absent (`undefined`):
`number + undefined` is `NaN`. -/
def undefAdd (a : JSNum) (o : Option Nat) : JSNum :=
  match o with
  | some n => jsAdd a (.num n)
  | none => .nan

/-- A repository entry of the consolidated report: a successful repository
(pushed by the per-repository processing) carries its counts, a failed one
(pushed by `main`'s catch block) carries only `path`, `name` and `error`,
so its numeric properties are absent (`none` = `undefined`). -/
structure ReportEntry where
  path : String
  name : String
  packageCount : Option Nat
  autoUpdateCount : Option Nat
  manualUpdateCount : Option Nat
  currentCount : Option Nat
  error : Option String
deriving DecidableEq

/-- The entry `main` pushes for a successfully processed repository. -/
def toReportEntry (r : RepoReport) : ReportEntry :=
  ⟨r.path, r.name, some r.packageCount, some r.autoUpdateCount,
    some r.manualUpdateCount, some r.currentCount, none⟩

/-- The entry `main`'s catch block pushes when processing a repository
throws (for example when its manifest fails to parse): only `path`, `name`
and the `error` message. -/
def errorReportEntry (path name msg : String) : ReportEntry :=
  ⟨path, name, none, none, none, none, some msg⟩

/-- The `summary` object of the consolidated report. -/
structure Summary where
  repositoryCount : Nat
  totalPackages : JSNum
  totalAutoUpdated : JSNum
  totalManualUpdateNeeded : JSNum
  totalCurrent : JSNum
deriving DecidableEq

/-- `reporter.generateConsolidatedReport` (src/reporter.js): sum each count
property over all entries with JS `+=` (an entry lacking the property
contributes `undefined`), and return the summary together with the entry
list (the timestamp is I/O). -/
def generateConsolidatedReport (repositoryReports : List ReportEntry) :
    Summary × List ReportEntry :=
  let summary : Summary :=
    { repositoryCount := repositoryReports.length
      totalPackages :=
        repositoryReports.foldl (fun a r => undefAdd a r.packageCount) (.num 0)
      totalAutoUpdated :=
        repositoryReports.foldl (fun a r => undefAdd a r.autoUpdateCount) (.num 0)
      totalManualUpdateNeeded :=
        repositoryReports.foldl (fun a r => undefAdd a r.manualUpdateCount) (.num 0)
      totalCurrent :=
        repositoryReports.foldl (fun a r => undefAdd a r.currentCount) (.num 0) }
  (summary, repositoryReports)

/-- The regex whitespace class `\s` on the characters appearing in go.mod
files. -/
def isSpaceChar (c : Char) : Bool :=
  c = ' ' || c = '\t' || c = '\n' || c = '\r'

/-- Trim leading and trailing whitespace (`String.prototype.trim`). -/
def trimChars (cs : List Char) : List Char :=
  ((cs.dropWhile isSpaceChar).reverse.dropWhile isSpaceChar).reverse

/-- Split a character list on a separator character, keeping empty pieces
(`String.prototype.split`). -/
def splitOnChar (sep : Char) : List Char → List (List Char)
  | [] => [[]]
  | c :: rest =>
      if c = sep then [] :: splitOnChar sep rest
      else
        match splitOnChar sep rest with
        | [] => [[c]]
        | p :: ps => (c :: p) :: ps

/-- `replace(/^v/, '')`: drop a single leading `'v'`. -/
def stripLeadingV : List Char → List Char
  | 'v' :: rest => rest
  | cs => cs

/-- Try the tail of the module-declaration pattern at one position: at least
one whitespace character, then the greedy capture `(.+)` — the rest of the
line. Covers the regex on inputs where text follows the whitespace run. -/
def matchSpacesThenRest (cs : List Char) : Option (List Char) :=
  let ws := cs.takeWhile isSpaceChar
  let r := cs.dropWhile isSpaceChar
  if ws = [] then none
  else
    let cap := r.takeWhile (fun c => !(c = '\n' || c = '\r'))
    if cap = [] then none else some cap

/-- First match of the pattern: literal `module`, whitespace, rest of line.
On failure at one position the scan moves one character forward, as the
regex engine does. -/
def findModuleDecl : List Char → Option (List Char)
  | [] => none
  | c :: rest =>
      if "module".data.isPrefixOf (c :: rest) then
        match matchSpacesThenRest ((c :: rest).drop 6) with
        | some cap => some cap
        | none => findModuleDecl rest
      else findModuleDecl rest

/-- Try the Go-version pattern at one position: literal `go`, whitespace,
then digits, a dot, digits, and an optional third dot-digits group. -/
def matchGoVersionAt (cs : List Char) : Option (List Char) :=
  if "go".data.isPrefixOf cs then
    let after := cs.drop 2
    let ws := after.takeWhile isSpaceChar
    let r := after.dropWhile isSpaceChar
    if ws = [] then none
    else
      let (d1, r1) := takeDigits r
      if d1 = [] then none
      else
        match r1 with
        | '.' :: r2 =>
            let (d2, r3) := takeDigits r2
            if d2 = [] then none
            else
              match r3 with
              | '.' :: r4 =>
                  let (d3, _) := takeDigits r4
                  if d3 = [] then some (d1 ++ '.' :: d2)
                  else some (d1 ++ '.' :: d2 ++ '.' :: d3)
              | _ => some (d1 ++ '.' :: d2)
        | _ => none
  else none

/-- First match of the Go-version pattern anywhere in the text. -/
def findGoVersion : List Char → Option (List Char)
  | [] => none
  | c :: rest =>
      match matchGoVersionAt (c :: rest) with
      | some v => some v
      | none => findGoVersion rest

/-- Try the single-line require pattern at one position: literal `require`,
whitespace, a non-whitespace token, whitespace, a second non-whitespace
token; returns the two tokens and the text after the match. -/
def matchRequireAt (cs : List Char) :
    Option ((List Char × List Char) × List Char) :=
  if "require".data.isPrefixOf cs then
    let after := cs.drop 7
    let ws1 := after.takeWhile isSpaceChar
    let r1 := after.dropWhile isSpaceChar
    if ws1 = [] then none
    else
      let t1 := r1.takeWhile (fun c => !isSpaceChar c)
      let r2 := r1.dropWhile (fun c => !isSpaceChar c)
      if t1 = [] then none
      else
        let ws2 := r2.takeWhile isSpaceChar
        let r3 := r2.dropWhile isSpaceChar
        if ws2 = [] then none
        else
          let t2 := r3.takeWhile (fun c => !isSpaceChar c)
          let r4 := r3.dropWhile (fun c => !isSpaceChar c)
          if t2 = [] then none else some ((t1, t2), r4)
  else none

/-- The global-regex `exec` loop over the single-line require pattern:
every match, each search resuming after the previous match's end
(`lastIndex`). Fuel is bounded below by the text length, so the exhausted
branch is never reached from `parseGoMod`. -/
def scanRequiresAux : Nat → List Char → List (List Char × List Char)
  | _, [] => []
  | 0, _ :: _ => []
  | fuel + 1, c :: rest =>
      match matchRequireAt (c :: rest) with
      | some (pair, after) => pair :: scanRequiresAux fuel after
      | none => scanRequiresAux fuel rest

/-- Try the require-block pattern at one position: literal `require`,
whitespace, `'('`, at least one non-`')'` character (the block body), then
`')'`; returns the body and the text after the match. -/
def matchRequireBlockAt (cs : List Char) :
    Option (List Char × List Char) :=
  if "require".data.isPrefixOf cs then
    let after := cs.drop 7
    let ws := after.takeWhile isSpaceChar
    let r := after.dropWhile isSpaceChar
    if ws = [] then none
    else
      match r with
      | '(' :: r1 =>
          let inner := r1.takeWhile (fun c => !(c = ')'))
          let r2 := r1.dropWhile (fun c => !(c = ')'))
          if inner = [] then none
          else
            match r2 with
            | ')' :: r3 => some (inner, r3)
            | _ => none
      | _ => none
  else none

/-- All require-block bodies in the text (the source's
`content.match(requireBlockRegex)` followed by stripping the
`require (` wrapper and the closing `)` from each match). -/
def scanRequireBlocksAux : Nat → List Char → List (List Char)
  | _, [] => []
  | 0, _ :: _ => []
  | fuel + 1, c :: rest =>
      match matchRequireBlockAt (c :: rest) with
      | some (inner, after) => inner :: scanRequireBlocksAux fuel after
      | none => scanRequireBlocksAux fuel rest

/-- One line inside a require block: trim it, then take the first two
whitespace-separated tokens, if the line has at least two. -/
def parseBlockLine (line : List Char) : Option (List Char × List Char) :=
  let cs := trimChars line
  let t1 := cs.takeWhile (fun c => !isSpaceChar c)
  let r1 := cs.dropWhile (fun c => !isSpaceChar c)
  if t1 = [] then none
  else
    let ws := r1.takeWhile isSpaceChar
    let r2 := r1.dropWhile isSpaceChar
    if ws = [] then none
    else
      let t2 := r2.takeWhile (fun c => !isSpaceChar c)
      if t2 = [] then none else some (t1, t2)

/-- Parsed go.mod content (`goAnalyzer.parseGoMod`'s result object). -/
structure GoMod where
  module : String
  go : String
  requires : List (String × String)
deriving DecidableEq

/-- `goAnalyzer.parseGoMod` (src/go-analyzer.js): extract the module name
and the Go version by their first pattern match, then every single-line
require match, then every require-block line, later assignments
overwriting earlier ones for the same name; versions are trimmed and have
one leading `v` stripped. -/
def parseGoMod (content : String) : GoMod :=
  let cs := content.data
  let moduleName := match findModuleDecl cs with
    | some cap => String.mk (trimChars cap)
    | none => ""
  let goVersion := match findGoVersion cs with
    | some v => String.mk (trimChars v)
    | none => ""
  let singles := scanRequiresAux cs.length cs
  let requires1 := singles.foldl
    (fun acc p =>
      assocSet acc (String.mk (trimChars p.1))
        (String.mk (stripLeadingV (trimChars p.2)))) []
  let blocks := scanRequireBlocksAux cs.length cs
  let requires2 := blocks.foldl
    (fun acc inner =>
      (splitOnChar '\n' inner).foldl
        (fun acc line =>
          match parseBlockLine line with
          | some (t1, t2) =>
              assocSet acc (String.mk (trimChars t1))
                (String.mk (stripLeadingV (trimChars t2)))
          | none => acc) acc) requires1
  ⟨moduleName, goVersion, requires2⟩

/-- What the categorisation is claimed to do with one comparison entry:
`'current'` goes (with its installed version) to the current bucket only;
a `canAutoUpdate` entry goes to the auto-updated bucket only; `'minor'` and
`'major'` go to the manual bucket only; `'unknown'` appears in none of the
three. -/
def bucketsSpec (b : Buckets) (p : String × CompResult) : Prop :=
  (p.2.updateType = "current" →
    assocGet b.1 p.1 = some p.2.installed ∧
    assocGet b.2.1 p.1 = none ∧ assocGet b.2.2 p.1 = none) ∧
  (p.2.canAutoUpdate = true →
    assocGet b.2.1 p.1 = some ⟨p.2.installed, p.2.latest, p.2.updateType⟩ ∧
    assocGet b.1 p.1 = none ∧ assocGet b.2.2 p.1 = none) ∧
  ((p.2.updateType = "minor" ∨ p.2.updateType = "major") →
    assocGet b.2.2 p.1 = some ⟨p.2.installed, p.2.latest, p.2.updateType⟩ ∧
    assocGet b.1 p.1 = none ∧ assocGet b.2.1 p.1 = none) ∧
  (p.2.updateType = "unknown" →
    assocGet b.1 p.1 = none ∧
    assocGet b.2.1 p.1 = none ∧ assocGet b.2.2 p.1 = none)

/-! Helper lemmas about the association-list object model. -/

theorem assocGet_assocSet_self {α : Type} (l : List (String × α))
    (k : String) (v : α) : assocGet (assocSet l k v) k = some v := by
  induction l with
  | nil => simp [assocGet, assocSet]
  | cons h t ih =>
      obtain ⟨k', v'⟩ := h
      by_cases hk : k' = k
      · simp [assocGet, assocSet, hk]
      · simp [assocGet, assocSet, hk, ih]

theorem assocGet_assocSet_ne {α : Type} (l : List (String × α))
    (k k' : String) (v : α) (h : k ≠ k') :
    assocGet (assocSet l k v) k' = assocGet l k' := by
  induction l with
  | nil => simp [assocGet, assocSet, h]
  | cons p t ih =>
      obtain ⟨k₀, v₀⟩ := p
      by_cases hk : k₀ = k
      · subst hk
        simp [assocGet, assocSet, h]
      · simp [assocGet, assocSet, hk, ih]

theorem assocSet_eq_self {α : Type} (l : List (String × α)) (k : String)
    (v : α) (h : assocGet l k = some v) : assocSet l k v = l := by
  induction l with
  | nil => simp [assocGet] at h
  | cons p t ih =>
      obtain ⟨k₀, v₀⟩ := p
      by_cases hk : k₀ = k
      · subst hk
        simp [assocGet] at h
        simp [assocSet, h]
      · simp [assocGet, hk] at h
        simp [assocSet, hk, ih h]

theorem assocGet_map_pair {α : Type} (names : List String) (f : String → α)
    (n : String) (hn : n ∈ names) :
    assocGet (names.map fun m => (m, f m)) n = some (f n) := by
  induction names with
  | nil => cases hn
  | cons h t ih =>
      by_cases hh : h = n
      · subst hh
        simp [assocGet]
      · rcases List.mem_cons.mp hn with rfl | ht
        · exact absurd rfl hh
        · simp [assocGet, hh, ih ht]

theorem assocGet_of_mem_nodup {α : Type} (l : List (String × α))
    (n : String) (r : α) (hnd : (l.map Prod.fst).Nodup) (hm : (n, r) ∈ l) :
    assocGet l n = some r := by
  induction l with
  | nil => cases hm
  | cons p t ih =>
      rcases List.mem_cons.mp hm with rfl | ht
      · simp [assocGet]
      · have hne : p.1 ≠ n := by
          intro he
          have : n ∈ t.map Prod.fst := List.mem_map.mpr ⟨(n, r), ht, rfl⟩
          rw [List.map_cons, List.nodup_cons] at hnd
          exact hnd.1 (he ▸ this)
        have hnd' : (t.map Prod.fst).Nodup := by
          rw [List.map_cons, List.nodup_cons] at hnd
          exact hnd.2
        simp [assocGet, hne, ih hnd' ht]

theorem compareOne_auto_iff_patch (lv : List (String × Option String))
    (q : String × String) :
    (compareOne lv q).2.canAutoUpdate = true ↔
      (compareOne lv q).2.updateType = "patch" := by
  unfold compareOne
  cases hget : assocGet lv q.1 with
  | none => simp [hget]
  | some o =>
      cases o with
      | none => simp [hget]
      | some l =>
          by_cases h1 : l = ""
          · simp [hget, h1]
          · by_cases h2 : q.2 = l
            · simp [hget, h1, h2]
            · simp [hget, h1, h2, beq_iff_eq]

/-- Claim C1, counterexample: for installed `2.0.0` and latest `1.5.0` the
first differing coerced component is the major one, so the claim's
direction-independent rule would classify `'major'`; both the npm
comparator and the Go checker instead return `'minor'`. -/
theorem c1_counterexample :
    semverParse "2.0.0" = some ⟨2, 0, 0⟩ ∧
    semverParse "1.5.0" = some ⟨1, 5, 0⟩ ∧
    firstDiffClass ⟨2, 0, 0⟩ ⟨1, 5, 0⟩ = "major" ∧
    getUpdateType "2.0.0" "1.5.0" = "minor" ∧
    (checkGoVersionUpdate "2.0.0" "1.5.0").updateType = "minor" := by
  decide

/-- Claim C1, amended: in the latest-not-older direction actually used by
callers (installed lexicographically at most latest), both version
policies classify by the first component, major then minor then patch, at
which the coerced triples differ, and return `'current'` on equal triples
even when the raw strings differ; when installed is lexicographically
ahead, the direction-independent rule of the original claim fails. -/
theorem c1_first_diff_component :
    (∀ i l ti tl, semverParse i = some ti → semverParse l = some tl →
        lexLe ti tl → getUpdateType i l = firstDiffClass ti tl) ∧
    (∀ i l ti tl, semverCoerce i = some ti → semverCoerce l = some tl →
        lexLe ti tl →
        (checkGoVersionUpdate i l).updateType = firstDiffClass ti tl) := by
  constructor
  · intro i l ti tl hi hl hle
    obtain ⟨a1, b1, c1⟩ := ti
    obtain ⟨a2, b2, c2⟩ := tl
    unfold lexLe at hle
    simp only at hle
    unfold getUpdateType firstDiffClass
    rw [hi, hl]
    simp only
    split_ifs <;> first | rfl | omega
  · intro i l ti tl hi hl hle
    obtain ⟨a1, b1, c1⟩ := ti
    obtain ⟨a2, b2, c2⟩ := tl
    unfold lexLe at hle
    simp only at hle
    unfold checkGoVersionUpdate firstDiffClass
    rw [hi, hl]
    simp only [SemVer.mk.injEq]
    split_ifs <;> first | rfl | omega

/-- Claim C1, witness: the amended theorem applied to the concrete pairs
`1.2.3 ≤ 1.2.5` (npm) and `1.21 ≤ 1.22.0` (Go). -/
theorem c1_witness :
    getUpdateType "1.2.3" "1.2.5" = firstDiffClass ⟨1, 2, 3⟩ ⟨1, 2, 5⟩ ∧
    (checkGoVersionUpdate "1.21" "1.22.0").updateType =
      firstDiffClass ⟨1, 21, 0⟩ ⟨1, 22, 0⟩ :=
  ⟨c1_first_diff_component.1 "1.2.3" "1.2.5" ⟨1, 2, 3⟩ ⟨1, 2, 5⟩
      (by decide) (by decide) (by decide),
    c1_first_diff_component.2 "1.21" "1.22.0" ⟨1, 21, 0⟩ ⟨1, 22, 0⟩
      (by decide) (by decide) (by decide)⟩

/-- Claim C10: for both version policies, `canAutoUpdate` is true exactly
when the classification is `'patch'` — for every entry of
`compareVersions`' result and for every input pair of
`checkGoVersionUpdate`. -/
theorem c10_auto_iff_patch :
    (∀ iv lv p, p ∈ compareVersions iv lv →
        (p.2.canAutoUpdate = true ↔ p.2.updateType = "patch")) ∧
    (∀ cur lat, (checkGoVersionUpdate cur lat).canAutoUpdate = true ↔
        (checkGoVersionUpdate cur lat).updateType = "patch") := by
  constructor
  · intro iv lv p hp
    rw [compareVersions, List.mem_map] at hp
    obtain ⟨q, _, rfl⟩ := hp
    exact compareOne_auto_iff_patch lv q
  · intro cur lat
    unfold checkGoVersionUpdate
    cases semverCoerce cur with
    | none => simp
    | some c =>
        cases semverCoerce lat with
        | none => simp
        | some l =>
            dsimp only
            split_ifs <;> simp

/-- Claim C10, witness: the theorem applied to a concrete one-package
comparison (a patch-level difference) and a concrete Go pair. -/
theorem c10_witness :
    ((("axios" : String),
        (⟨"0.21.1", some "0.21.4", "patch", true⟩ : CompResult)).2.canAutoUpdate = true ↔
      ((("axios" : String),
        (⟨"0.21.1", some "0.21.4", "patch", true⟩ : CompResult)).2.updateType = "patch")) ∧
    ((checkGoVersionUpdate "1.21.0" "1.21.3").canAutoUpdate = true ↔
      (checkGoVersionUpdate "1.21.0" "1.21.3").updateType = "patch") :=
  ⟨c10_auto_iff_patch.1 [("axios", "0.21.1")]
      [("axios", some "0.21.4")]
      ("axios", ⟨"0.21.1", some "0.21.4", "patch", true⟩) (by decide),
    c10_auto_iff_patch.2 "1.21.0" "1.21.3"⟩

/-- Claim C3: refuted on the code. For the manifest
`dependencies = (axios, caret 0.21.1)` and the approved map
`(axios, 0.21.4)`, `updatePackageJson` records
`from = "^0.21.4"` — the value read back after the assignment, always equal
to `to` — instead of the pre-rewrite value `"^0.21.1"` the claim requires. -/
theorem c3_from_equals_new_value :
    (updatePackageJson ⟨some [("axios", "^0.21.1")], none, none⟩
        [("axios", "0.21.4")]).updatedDependencies =
      [("axios", ⟨"dependencies", "^0.21.4", "^0.21.4"⟩)] ∧
    (updatePackageJson ⟨some [("axios", "^0.21.1")], none, none⟩
        [("axios", "0.21.4")]).packageJson.dependencies =
      some [("axios", "^0.21.4")] ∧
    ("^0.21.4" : String) ≠ "^0.21.1" := by
  decide

/-- Claim C7: refuted on the code. On a go.mod with a require block, the
single-line require regex also matches the block header `require (`,
recording the spurious key `"("` (mapped to the first module name of the
block) in `requires`, so the keys are not exactly the declared module
names. The module line, the go line, the block entry with its leading `v`
stripped, and the overwrite of the single-line pass by the block pass are
all visible in the evaluated result. -/
theorem c7_spurious_paren_key :
    parseGoMod
        "module example.com/m\ngo 1.21\nrequire (\n\tgithub.com/a v1.2.3\n)\n" =
      ⟨"example.com/m", "1.21",
        [("(", "github.com/a"), ("github.com/a", "1.2.3")]⟩ ∧
    assocGet
        (parseGoMod
          "module example.com/m\ngo 1.21\nrequire (\n\tgithub.com/a v1.2.3\n)\n").requires
        "(" = some "github.com/a" := by
  decide

/-- Claim C2: refuted on the code. With two discovered repositories of
which one fails manifest parsing, the consolidated report does have
`repositoryCount = 2` and an `error`-carrying entry, but the failed entry
does not contribute zero: its absent count properties are `undefined`, and
JS `+=` turns every summary total into `NaN` instead of the successful
repository's counts (here `totalPackages` would be 3). -/
theorem c2_nan_summary_totals :
    (generateConsolidatedReport
        [toReportEntry
            (generateRepositoryReport ⟨"/repos/app", "npm"⟩
              [("axios", ⟨"0.21.1", some "0.21.4", "patch", true⟩),
                ("react", ⟨"17.0.2", some "18.2.0", "major", false⟩),
                ("lodash", ⟨"4.17.21", some "4.17.21", "current", false⟩)]
              none),
          errorReportEntry "/repos/broken" "broken"
            "Failed to read package.json at /repos/broken/package.json"]).1 =
      ⟨2, JSNum.nan, JSNum.nan, JSNum.nan, JSNum.nan⟩ ∧
    (errorReportEntry "/repos/broken" "broken"
        "Failed to read package.json at /repos/broken/package.json").error =
      some "Failed to read package.json at /repos/broken/package.json" ∧
    (toReportEntry
        (generateRepositoryReport ⟨"/repos/app", "npm"⟩
          [("axios", ⟨"0.21.1", some "0.21.4", "patch", true⟩),
            ("react", ⟨"17.0.2", some "18.2.0", "major", false⟩),
            ("lodash", ⟨"4.17.21", some "4.17.21", "current", false⟩)]
          none)).packageCount = some 3 ∧
    JSNum.nan ≠ JSNum.num 3 := by
  decide

/-- Claim C6, counterexample: in the axios scenario the auto-updated bucket
entry is built from `result.installed` and `result.latest`, which are the
bare version strings `0.21.1` and `0.21.4` — not the caret-prefixed
`^0.21.1` / `^0.21.4` the claim states (the caret appears only in the
manifest rewrite). -/
theorem c6_counterexample :
    assocGet
        (generateRepositoryReport ⟨"/repos/app", "npm"⟩
          (compareVersions
            (getInstalledVersions none [("axios", "^0.21.1")])
            (fetchLatestVersions ["axios"]
              (fun n => if n = "axios" then some "0.21.4" else none)))
          none).autoUpdatePackages "axios" =
      some ⟨"0.21.1", some "0.21.4", "patch"⟩ ∧
    ("0.21.1" : String) ≠ "^0.21.1" ∧
    (some "0.21.4" : Option String) ≠ some "^0.21.4" := by
  decide

/-- Claim C6, amended: in the axios scenario (declared range `^0.21.1`, no
lock, registry latest `0.21.4`) the classification is `'patch'` with
`canAutoUpdate` true, the manifest entry is rewritten to `^0.21.4`, and the
auto-updated bucket records the bare versions:
`from = "0.21.1"`, `to = "0.21.4"`, `updateType = "patch"`. -/
theorem c6_axios_scenario :
    compareVersions
        (getInstalledVersions none [("axios", "^0.21.1")])
        (fetchLatestVersions ["axios"]
          (fun n => if n = "axios" then some "0.21.4" else none)) =
      [("axios", ⟨"0.21.1", some "0.21.4", "patch", true⟩)] ∧
    getAutoUpdatePackages
        [("axios", ⟨"0.21.1", some "0.21.4", "patch", true⟩)] =
      [("axios", "0.21.4")] ∧
    (updatePackages ⟨some [("axios", "^0.21.1")], none, none⟩
        [("axios", "0.21.4")]).manifest.dependencies =
      some [("axios", "^0.21.4")] ∧
    assocGet
        (generateRepositoryReport ⟨"/repos/app", "npm"⟩
          [("axios", ⟨"0.21.1", some "0.21.4", "patch", true⟩)]
          (some (updatePackages ⟨some [("axios", "^0.21.1")], none, none⟩
            [("axios", "0.21.4")]))).autoUpdatePackages "axios" =
      some ⟨"0.21.1", some "0.21.4", "patch"⟩ ∧
    (generateRepositoryReport ⟨"/repos/app", "npm"⟩
        [("axios", ⟨"0.21.1", some "0.21.4", "patch", true⟩)]
        (some (updatePackages ⟨some [("axios", "^0.21.1")], none, none⟩
          [("axios", "0.21.4")]))).autoUpdated = true := by
  decide

theorem fetchBatchesAux_eq_map (fetchInfo : String → Option String) :
    ∀ (fuel : Nat) (names : List String), names.length ≤ fuel →
      fetchBatchesAux fetchInfo fuel names =
        names.map fun n => (n, settledValue (fetchInfo n)) := by
  intro fuel
  induction fuel with
  | zero =>
      intro names hlen
      cases names with
      | nil => rfl
      | cons n rest => simp at hlen
  | succ fuel ih =>
      intro names hlen
      cases names with
      | nil => rfl
      | cons n rest =>
          rw [fetchBatchesAux]
          rw [ih ((n :: rest).drop 10)
            (by simp only [List.length_drop, List.length_cons] at hlen ⊢; omega)]
          rw [← List.map_append, List.take_append_drop]

theorem fetchLatestVersions_eq_map (names : List String)
    (fetchInfo : String → Option String) :
    fetchLatestVersions names fetchInfo =
      names.map fun n => (n, settledValue (fetchInfo n)) :=
  fetchBatchesAux_eq_map fetchInfo names.length names le_rfl

/-- Claim C9: `fetchLatestVersions` records an entry for every requested
name — `none` (JS `null`) exactly when that name's own lookup settles
rejected or falsy, the fetched version otherwise — so one failure never
aborts the rest of its batch (totality of the settle step is the modelled
absence of a propagating exception); concretely, a batch of ten names with
one failing lookup yields exactly one `null` entry and nine populated
ones. -/
theorem c9_partial_failure_containment :
    (∀ (names : List String) (fetchInfo : String → Option String) (n : String),
        n ∈ names →
        assocGet (fetchLatestVersions names fetchInfo) n =
          some (settledValue (fetchInfo n))) ∧
    ((fetchLatestVersions
        ["p1", "p2", "p3", "p4", "p5", "p6", "p7", "p8", "p9", "p10"]
        (fun n => if n = "p4" then none else some ("1.0.0"))).countP
          (fun p => p.2 == none) = 1 ∧
      (fetchLatestVersions
        ["p1", "p2", "p3", "p4", "p5", "p6", "p7", "p8", "p9", "p10"]
        (fun n => if n = "p4" then none else some ("1.0.0"))).countP
          (fun p => p.2 ≠ none) = 9 ∧
      (fetchLatestVersions
        ["p1", "p2", "p3", "p4", "p5", "p6", "p7", "p8", "p9", "p10"]
        (fun n => if n = "p4" then none else some ("1.0.0"))).length = 10) := by
  constructor
  · intro names fetchInfo n hn
    rw [fetchLatestVersions_eq_map]
    exact assocGet_map_pair names (fun m => settledValue (fetchInfo m)) n hn
  · refine ⟨?_, ?_, ?_⟩ <;> decide

/-- Claim C9, witness: the theorem applied to a concrete two-name batch
where the first lookup fails. -/
theorem c9_witness :
    assocGet
        (fetchLatestVersions ["left-pad", "axios"]
          (fun n => if n = "left-pad" then none else some "0.21.4"))
        "axios" =
      some (settledValue
        ((fun n => if n = "left-pad" then none else some "0.21.4") "axios")) :=
  c9_partial_failure_containment.1 ["left-pad", "axios"]
    (fun n => if n = "left-pad" then none else some "0.21.4") "axios"
    (by decide)

/-- Claim C5, counterexample: a non-null lock object with neither a
`dependencies` nor a `packages` section produces an empty result map —
the declared name `a` gets no entry at all, instead of the stripped range
`1.0.0` the claim requires for this case. -/
theorem c5_counterexample :
    getInstalledVersions (some ⟨none, none⟩) [("a", "^1.0.0")] = [] ∧
    assocGet (getInstalledVersions (some ⟨none, none⟩) [("a", "^1.0.0")]) "a" =
      none ∧
    stripRange "^1.0.0" = "1.0.0" := by
  decide

/-- Claim C5, amended: for a declared map with unique names, every declared
name is resolved as the claim states — pinned version from a v1 lock's
`dependencies` entry (by name) or, when that section is absent, from a
v7+ lock's `packages` entry (keyed `node_modules/<name>`), falling back to
the declared range with every `^ ~ > = <` character stripped when the lock
is null, the entry is absent, or the entry's version is missing or falsy —
except that a non-null lock carrying neither section yields an empty map
(and the v7+ section is consulted only when the v1 section is absent). -/
theorem c5_resolution :
    (∀ (deps : List (String × String)) (n r : String),
        (deps.map Prod.fst).Nodup → (n, r) ∈ deps →
        assocGet (getInstalledVersions none deps) n = some (stripRange r)) ∧
    (∀ (lockDeps : List (String × LockEntry))
        (pkgs : Option (List (String × LockEntry)))
        (deps : List (String × String)) (n r : String),
        (deps.map Prod.fst).Nodup → (n, r) ∈ deps →
        assocGet (getInstalledVersions (some ⟨some lockDeps, pkgs⟩) deps) n =
          some (match assocGet lockDeps n with
            | some entry =>
                match entry.version with
                | some v => if v = "" then stripRange r else v
                | none => stripRange r
            | none => stripRange r)) ∧
    (∀ (lockPkgs : List (String × LockEntry))
        (deps : List (String × String)) (n r : String),
        (deps.map Prod.fst).Nodup → (n, r) ∈ deps →
        assocGet (getInstalledVersions (some ⟨none, some lockPkgs⟩) deps) n =
          some (match assocGet lockPkgs ("node_modules/" ++ n) with
            | some entry =>
                match entry.version with
                | some v => if v = "" then stripRange r else v
                | none => stripRange r
            | none => stripRange r)) ∧
    (∀ deps : List (String × String),
        getInstalledVersions (some ⟨none, none⟩) deps = []) := by
  refine ⟨?_, ?_, ?_, ?_⟩
  · intro deps n r hnd hm
    have hget := assocGet_of_mem_nodup deps n r hnd hm
    have hn : n ∈ deps.map Prod.fst := List.mem_map.mpr ⟨(n, r), hm, rfl⟩
    unfold getInstalledVersions
    rw [assocGet_map_pair _ _ n hn]
    simp only [hget, Option.getD_some]
  · intro lockDeps pkgs deps n r hnd hm
    have hget := assocGet_of_mem_nodup deps n r hnd hm
    have hn : n ∈ deps.map Prod.fst := List.mem_map.mpr ⟨(n, r), hm, rfl⟩
    unfold getInstalledVersions
    rw [assocGet_map_pair _ _ n hn]
    simp only [hget, Option.getD_some]
  · intro lockPkgs deps n r hnd hm
    have hget := assocGet_of_mem_nodup deps n r hnd hm
    have hn : n ∈ deps.map Prod.fst := List.mem_map.mpr ⟨(n, r), hm, rfl⟩
    unfold getInstalledVersions
    rw [assocGet_map_pair _ _ n hn]
    simp only [hget, Option.getD_some]
  · intro deps
    rfl

/-- Claim C5, witness: the amended theorem applied to a concrete declared
map against a null lock, a v1 lock, a v7+ lock, and a sectionless lock. -/
theorem c5_witness :
    assocGet (getInstalledVersions none [("axios", "^0.21.1")]) "axios" =
      some (stripRange "^0.21.1") ∧
    assocGet
        (getInstalledVersions
          (some ⟨some [("axios", ⟨some "0.21.1"⟩)], none⟩)
          [("axios", "^0.21.1")]) "axios" =
      some (match assocGet [("axios", (⟨some "0.21.1"⟩ : LockEntry))] "axios" with
        | some entry =>
            match entry.version with
            | some v => if v = "" then stripRange "^0.21.1" else v
            | none => stripRange "^0.21.1"
        | none => stripRange "^0.21.1") ∧
    assocGet
        (getInstalledVersions
          (some ⟨none, some [("node_modules/axios", ⟨some "0.21.1"⟩)]⟩)
          [("axios", "^0.21.1")]) "axios" =
      some (match assocGet [("node_modules/axios", (⟨some "0.21.1"⟩ : LockEntry))]
              ("node_modules/" ++ "axios") with
        | some entry =>
            match entry.version with
            | some v => if v = "" then stripRange "^0.21.1" else v
            | none => stripRange "^0.21.1"
        | none => stripRange "^0.21.1") ∧
    getInstalledVersions (some ⟨none, none⟩) [("axios", "^0.21.1")] = [] :=
  ⟨c5_resolution.1 [("axios", "^0.21.1")] "axios" "^0.21.1"
      (by decide) (by decide),
    c5_resolution.2.1 [("axios", ⟨some "0.21.1"⟩)] none
      [("axios", "^0.21.1")] "axios" "^0.21.1" (by decide) (by decide),
    c5_resolution.2.2.1 [("node_modules/axios", ⟨some "0.21.1"⟩)]
      [("axios", "^0.21.1")] "axios" "^0.21.1" (by decide) (by decide),
    c5_resolution.2.2.2 [("axios", "^0.21.1")]⟩

theorem categorizeStep_get_ne (st : Buckets) (q : String × CompResult)
    (n : String) (hne : q.1 ≠ n) :
    assocGet (categorizeStep st q).1 n = assocGet st.1 n ∧
    assocGet (categorizeStep st q).2.1 n = assocGet st.2.1 n ∧
    assocGet (categorizeStep st q).2.2 n = assocGet st.2.2 n := by
  unfold categorizeStep
  dsimp only
  split_ifs <;>
    exact ⟨by first | rfl | exact assocGet_assocSet_ne _ _ _ _ hne,
      by first | rfl | exact assocGet_assocSet_ne _ _ _ _ hne,
      by first | rfl | exact assocGet_assocSet_ne _ _ _ _ hne⟩

theorem categorize_preserve (results : List (String × CompResult))
    (n : String) (hn : n ∉ results.map Prod.fst) :
    ∀ st : Buckets,
      assocGet (results.foldl categorizeStep st).1 n = assocGet st.1 n ∧
      assocGet (results.foldl categorizeStep st).2.1 n = assocGet st.2.1 n ∧
      assocGet (results.foldl categorizeStep st).2.2 n = assocGet st.2.2 n := by
  induction results with
  | nil => intro st; exact ⟨rfl, rfl, rfl⟩
  | cons q rest ih =>
      intro st
      rw [List.map_cons] at hn
      have hboth : ¬(n = q.1 ∨ n ∈ rest.map Prod.fst) :=
        fun h => hn (List.mem_cons.mpr h)
      have hne : q.1 ≠ n := fun h => hboth (Or.inl h.symm)
      have hn' : n ∉ rest.map Prod.fst := fun h => hboth (Or.inr h)
      rw [List.foldl_cons]
      have hstep := categorizeStep_get_ne st q n hne
      have hrest := ih hn' (categorizeStep st q)
      exact ⟨hrest.1.trans hstep.1, hrest.2.1.trans hstep.2.1,
        hrest.2.2.trans hstep.2.2⟩

theorem categorize_fold_spec :
    ∀ (results : List (String × CompResult)),
      (results.map Prod.fst).Nodup →
      (∀ p ∈ results, p.2.canAutoUpdate = true ↔ p.2.updateType = "patch") →
      ∀ p ∈ results, ∀ st : Buckets,
        assocGet st.1 p.1 = none → assocGet st.2.1 p.1 = none →
        assocGet st.2.2 p.1 = none →
        bucketsSpec (results.foldl categorizeStep st) p := by
  intro results
  induction results with
  | nil => intro _ _ p hp; cases hp
  | cons q rest ih =>
      intro hnd hinv p hp st h1 h2 h3
      rw [List.foldl_cons]
      rw [List.map_cons, List.nodup_cons] at hnd
      rcases List.mem_cons.mp hp with rfl | hpr
      · have hpres := categorize_preserve rest p.1 hnd.1 (categorizeStep st p)
        have hinvp := hinv p (List.mem_cons_self _ _)
        unfold bucketsSpec
        rw [hpres.1, hpres.2.1, hpres.2.2]
        by_cases hcur : p.2.updateType = "current"
        · have hstep : categorizeStep st p =
              (assocSet st.1 p.1 p.2.installed, st.2.1, st.2.2) := by
            simp [categorizeStep, hcur]
          rw [hstep]
          refine ⟨fun _ => ⟨assocGet_assocSet_self _ _ _, h2, h3⟩,
            fun hca => absurd (hcur.symm.trans (hinvp.mp hca)) (by decide),
            fun hmm => ?_,
            fun hun => absurd (hcur.symm.trans hun) (by decide)⟩
          rcases hmm with h | h <;>
            exact absurd (hcur.symm.trans h) (by decide)
        · by_cases hca : p.2.canAutoUpdate = true
          · have hstep : categorizeStep st p =
                (st.1,
                  assocSet st.2.1 p.1 ⟨p.2.installed, p.2.latest, p.2.updateType⟩,
                  st.2.2) := by
              simp [categorizeStep, hcur, hca]
            rw [hstep]
            have hpatch := hinvp.mp hca
            refine ⟨fun hc => absurd hc hcur,
              fun _ => ⟨assocGet_assocSet_self _ _ _, h1, h3⟩,
              fun hmm => ?_,
              fun hun => absurd (hpatch.symm.trans hun) (by decide)⟩
            rcases hmm with h | h <;>
              exact absurd (hpatch.symm.trans h) (by decide)
          · by_cases hmm : p.2.updateType = "minor" ∨ p.2.updateType = "major"
            · have hstep : categorizeStep st p =
                  (st.1, st.2.1,
                    assocSet st.2.2 p.1
                      ⟨p.2.installed, p.2.latest, p.2.updateType⟩) := by
                simp [categorizeStep, hcur, hca, hmm]
              rw [hstep]
              refine ⟨fun hc => absurd hc hcur, fun hc => absurd hc hca,
                fun _ => ⟨assocGet_assocSet_self _ _ _, h1, h2⟩,
                fun hun => ?_⟩
              rcases hmm with h | h <;>
                exact absurd (h.symm.trans hun) (by decide)
            · have hstep : categorizeStep st p = st := by
                simp [categorizeStep, hcur, hca, hmm]
              rw [hstep]
              exact ⟨fun hc => absurd hc hcur, fun hc => absurd hc hca,
                fun hm => absurd hm hmm, fun _ => ⟨h1, h2, h3⟩⟩
      · have hq1 : q.1 ≠ p.1 := by
          intro he
          exact hnd.1 (he ▸ List.mem_map.mpr ⟨p, hpr, rfl⟩)
        have hstep := categorizeStep_get_ne st q p.1 hq1
        exact ih hnd.2 (fun r hr => hinv r (List.mem_cons_of_mem _ hr)) p hpr
          (categorizeStep st q) (hstep.1.trans h1) (hstep.2.1.trans h2)
          (hstep.2.2.trans h3)

/-- Claim C8: for every comparison-results map with unique names whose
entries satisfy the policy invariant (`canAutoUpdate` iff `'patch'`, which
both version policies guarantee), `generateRepositoryReport` partitions
entries as claimed — `'current'` to the current bucket, auto-updatable to
the auto bucket, `'minor'`/`'major'` to the manual bucket, `'unknown'` to
no bucket — while `packageCount` counts all entries; concretely a single
`'unknown'` entry gives `packageCount = 1` with all three bucket counts 0,
so the bucket counts need not sum to `packageCount`. -/
theorem c8_report_partition :
    (∀ (repo : Repository) (u : Option UpdateResult)
        (results : List (String × CompResult)),
        (results.map Prod.fst).Nodup →
        (∀ p ∈ results, p.2.canAutoUpdate = true ↔ p.2.updateType = "patch") →
        (∀ p ∈ results,
          bucketsSpec
            ((generateRepositoryReport repo results u).currentPackages,
              (generateRepositoryReport repo results u).autoUpdatePackages,
              (generateRepositoryReport repo results u).manualUpdatePackages)
            p) ∧
        (generateRepositoryReport repo results u).packageCount =
          results.length) ∧
    ((generateRepositoryReport ⟨"/r", "npm"⟩
        [("x", ⟨"1.0.0", none, "unknown", false⟩)] none).packageCount = 1 ∧
      (generateRepositoryReport ⟨"/r", "npm"⟩
        [("x", ⟨"1.0.0", none, "unknown", false⟩)] none).autoUpdateCount = 0 ∧
      (generateRepositoryReport ⟨"/r", "npm"⟩
        [("x", ⟨"1.0.0", none, "unknown", false⟩)] none).manualUpdateCount = 0 ∧
      (generateRepositoryReport ⟨"/r", "npm"⟩
        [("x", ⟨"1.0.0", none, "unknown", false⟩)] none).currentCount = 0) := by
  constructor
  · intro repo u results hnd hinv
    refine ⟨fun p hp => ?_, rfl⟩
    exact categorize_fold_spec results hnd hinv p hp ([], [], []) rfl rfl rfl
  · exact ⟨rfl, rfl, rfl, rfl⟩

/-- Claim C8, witness: the theorem applied to a concrete three-entry
comparison result (one per non-unknown classification). -/
theorem c8_witness :
    bucketsSpec
      ((generateRepositoryReport ⟨"/repos/app", "npm"⟩
          [("axios", ⟨"0.21.1", some "0.21.4", "patch", true⟩),
            ("react", ⟨"17.0.2", some "18.2.0", "major", false⟩),
            ("lodash", ⟨"4.17.21", some "4.17.21", "current", false⟩)]
          none).currentPackages,
        (generateRepositoryReport ⟨"/repos/app", "npm"⟩
          [("axios", ⟨"0.21.1", some "0.21.4", "patch", true⟩),
            ("react", ⟨"17.0.2", some "18.2.0", "major", false⟩),
            ("lodash", ⟨"4.17.21", some "4.17.21", "current", false⟩)]
          none).autoUpdatePackages,
        (generateRepositoryReport ⟨"/repos/app", "npm"⟩
          [("axios", ⟨"0.21.1", some "0.21.4", "patch", true⟩),
            ("react", ⟨"17.0.2", some "18.2.0", "major", false⟩),
            ("lodash", ⟨"4.17.21", some "4.17.21", "current", false⟩)]
          none).manualUpdatePackages)
      ("axios", ⟨"0.21.1", some "0.21.4", "patch", true⟩) ∧
    (generateRepositoryReport ⟨"/repos/app", "npm"⟩
        [("axios", ⟨"0.21.1", some "0.21.4", "patch", true⟩),
          ("react", ⟨"17.0.2", some "18.2.0", "major", false⟩),
          ("lodash", ⟨"4.17.21", some "4.17.21", "current", false⟩)]
        none).packageCount = 3 :=
  ⟨((c8_report_partition.1 ⟨"/repos/app", "npm"⟩ none
        [("axios", ⟨"0.21.1", some "0.21.4", "patch", true⟩),
          ("react", ⟨"17.0.2", some "18.2.0", "major", false⟩),
          ("lodash", ⟨"4.17.21", some "4.17.21", "current", false⟩)]
        (by decide) (by decide)).1
      ("axios", ⟨"0.21.1", some "0.21.4", "patch", true⟩) (by decide)),
    (c8_report_partition.1 ⟨"/repos/app", "npm"⟩ none
        [("axios", ⟨"0.21.1", some "0.21.4", "patch", true⟩),
          ("react", ⟨"17.0.2", some "18.2.0", "major", false⟩),
          ("lodash", ⟨"4.17.21", some "4.17.21", "current", false⟩)]
        (by decide) (by decide)).2⟩

theorem caret_ne_empty (x : String) : ("^" ++ x) ≠ "" := by
  intro h
  have hd : ("^" ++ x).data = ("" : String).data := congrArg String.data h
  rw [String.data_append] at hd
  simp at hd

theorem updateSectionStep_get_ne (s : String)
    (st : List (String × String) × List (String × UpdRec))
    (p : String × String) (n : String) (hne : p.1 ≠ n) :
    assocGet (updateSectionStep s st p).1 n = assocGet st.1 n := by
  unfold updateSectionStep
  cases hg : assocGet st.1 p.1 with
  | none => rfl
  | some cur =>
      by_cases hc : cur = ""
      · simp [hc]
      · simp only [hc, if_neg (fun h => hc h)]
        exact assocGet_assocSet_ne _ _ _ _ hne

theorem updateSectionLoop_get_ne (s : String) :
    ∀ (upd : List (String × String)) (n : String),
      n ∉ upd.map Prod.fst →
      ∀ sec acc, assocGet (updateSectionLoop s upd sec acc).1 n = assocGet sec n := by
  intro upd
  induction upd with
  | nil => intro n _ sec acc; rfl
  | cons p rest ih =>
      intro n hn sec acc
      rw [List.map_cons] at hn
      have hboth : ¬(n = p.1 ∨ n ∈ rest.map Prod.fst) :=
        fun h => hn (List.mem_cons.mpr h)
      have hne : p.1 ≠ n := fun h => hboth (Or.inl h.symm)
      have hn' : n ∉ rest.map Prod.fst := fun h => hboth (Or.inr h)
      rw [updateSectionLoop, List.foldl_cons]
      have := ih n hn' (updateSectionStep s (sec, acc) p).1
        (updateSectionStep s (sec, acc) p).2
      rw [updateSectionLoop] at this
      exact this.trans (updateSectionStep_get_ne s (sec, acc) p n hne)

theorem updateSectionLoop_cons (s : String) (p : String × String)
    (rest : List (String × String)) (sec : List (String × String))
    (acc : List (String × UpdRec)) :
    updateSectionLoop s (p :: rest) sec acc =
      updateSectionLoop s rest (updateSectionStep s (sec, acc) p).1
        (updateSectionStep s (sec, acc) p).2 := by
  rw [updateSectionLoop, List.foldl_cons, updateSectionLoop]

theorem updateSectionLoop_stable (s : String) :
    ∀ (upd : List (String × String)), (upd.map Prod.fst).Nodup →
      ∀ sec acc acc2,
        updateSectionLoop s upd (updateSectionLoop s upd sec acc).1 acc2 =
          ((updateSectionLoop s upd sec acc).1,
            (updateSectionLoop s upd sec acc2).2) := by
  intro upd
  induction upd with
  | nil => intro _ sec acc acc2; rfl
  | cons p rest ih =>
      intro hnd sec acc acc2
      rw [List.map_cons, List.nodup_cons] at hnd
      rw [updateSectionLoop_cons s p rest sec acc,
        updateSectionLoop_cons s p rest sec acc2]
      cases hg : assocGet sec p.1 with
      | none =>
          have hstep : ∀ a, updateSectionStep s (sec, a) p = (sec, a) := by
            intro a
            unfold updateSectionStep
            rw [hg]
          rw [hstep acc, hstep acc2]
          have hgf : assocGet (updateSectionLoop s rest sec acc).1 p.1 =
              assocGet sec p.1 :=
            updateSectionLoop_get_ne s rest p.1 hnd.1 sec acc
          rw [updateSectionLoop_cons s p rest
            (updateSectionLoop s rest sec acc).1 acc2]
          have hstepF :
              updateSectionStep s ((updateSectionLoop s rest sec acc).1, acc2) p =
                ((updateSectionLoop s rest sec acc).1, acc2) := by
            unfold updateSectionStep
            rw [hgf, hg]
          rw [hstepF]
          exact ih hnd.2 sec acc acc2
      | some cur =>
          by_cases hc : cur = ""
          · subst hc
            have hstep : ∀ a, updateSectionStep s (sec, a) p = (sec, a) := by
              intro a
              unfold updateSectionStep
              rw [hg]
              simp
            rw [hstep acc, hstep acc2]
            have hgf : assocGet (updateSectionLoop s rest sec acc).1 p.1 =
                assocGet sec p.1 :=
              updateSectionLoop_get_ne s rest p.1 hnd.1 sec acc
            rw [updateSectionLoop_cons s p rest
              (updateSectionLoop s rest sec acc).1 acc2]
            have hstepF :
                updateSectionStep s
                    ((updateSectionLoop s rest sec acc).1, acc2) p =
                  ((updateSectionLoop s rest sec acc).1, acc2) := by
              unfold updateSectionStep
              rw [hgf, hg]
              simp
            rw [hstepF]
            exact ih hnd.2 sec acc acc2
          · have hstep : ∀ a, updateSectionStep s (sec, a) p =
                (assocSet sec p.1 ("^" ++ p.2),
                  assocSet a p.1 ⟨s, "^" ++ p.2, "^" ++ p.2⟩) := by
              intro a
              unfold updateSectionStep
              rw [hg]
              simp [hc, assocGet_assocSet_self]
            rw [hstep acc, hstep acc2]
            have hgf :
                assocGet
                    (updateSectionLoop s rest (assocSet sec p.1 ("^" ++ p.2))
                      (assocSet acc p.1 ⟨s, "^" ++ p.2, "^" ++ p.2⟩)).1 p.1 =
                  some ("^" ++ p.2) :=
              (updateSectionLoop_get_ne s rest p.1 hnd.1 _ _).trans
                (assocGet_assocSet_self sec p.1 _)
            rw [updateSectionLoop_cons]
            have hstepF :
                updateSectionStep s
                    ((updateSectionLoop s rest (assocSet sec p.1 ("^" ++ p.2))
                        (assocSet acc p.1 ⟨s, "^" ++ p.2, "^" ++ p.2⟩)).1,
                      acc2) p =
                  ((updateSectionLoop s rest (assocSet sec p.1 ("^" ++ p.2))
                      (assocSet acc p.1 ⟨s, "^" ++ p.2, "^" ++ p.2⟩)).1,
                    assocSet acc2 p.1 ⟨s, "^" ++ p.2, "^" ++ p.2⟩) := by
              unfold updateSectionStep
              rw [hgf]
              simp [caret_ne_empty p.2, assocSet_eq_self _ _ _ hgf,
                assocGet_assocSet_self, hgf]
            rw [hstepF]
            exact ih hnd.2 (assocSet sec p.1 ("^" ++ p.2))
              (assocSet acc p.1 ⟨s, "^" ++ p.2, "^" ++ p.2⟩)
              (assocSet acc2 p.1 ⟨s, "^" ++ p.2, "^" ++ p.2⟩)

theorem updatePackageJson_idem (m : PackageJson)
    (upd : List (String × String)) (hnd : (upd.map Prod.fst).Nodup) :
    updatePackageJson (updatePackageJson m upd).packageJson upd =
      updatePackageJson m upd := by
  obtain ⟨dep, dev, opt⟩ := m
  cases dep <;> cases dev <;> cases opt <;>
    simp only [updatePackageJson, updateSectionLoop_stable _ upd hnd]

/-- Claim C4, counterexample: running `updatePackages` a second time with
the same approved map on the manifest produced by the first run reports a
non-empty changed-set — the second call re-records `axios` (with
`from = to = "^0.21.4"`), not the zero changed entries the claim states. -/
theorem c4_counterexample :
    (updatePackages
        (updatePackages ⟨some [("axios", "^0.21.1")], none, none⟩
          [("axios", "0.21.4")]).manifest
        [("axios", "0.21.4")]).updatedDependencies =
      [("axios", ⟨"dependencies", "^0.21.4", "^0.21.4"⟩)] ∧
    (updatePackages
        (updatePackages ⟨some [("axios", "^0.21.1")], none, none⟩
          [("axios", "0.21.4")]).manifest
        [("axios", "0.21.4")]).updatedDependencies ≠ [] := by
  decide

/-- Claim C4, amended: for an approved map with unique names, a second
`updatePackages` run on the manifest produced by the first returns exactly
the first run's result — the manifest is unchanged (the rewrite is
idempotent on the file), but the reported changed-set is the first call's
changed-set again, re-recording every approved name present in a section;
it is empty only when the first call's changed-set was empty (as happens
via the pipeline, where an upstream `'current'` classification yields an
empty approved map). -/
theorem c4_second_run_reports_same :
    ∀ (m : PackageJson) (upd : List (String × String)),
      (upd.map Prod.fst).Nodup →
      updatePackages (updatePackages m upd).manifest upd =
        updatePackages m upd := by
  intro m upd hnd
  cases upd with
  | nil => rfl
  | cons p rest =>
      have hlen : (p :: rest).length ≠ 0 := by simp
      simp only [updatePackages, if_neg hlen]
      rw [updatePackageJson_idem m (p :: rest) hnd]

/-- Claim C4, witness: the amended theorem applied to the axios scenario
manifest and approved map. -/
theorem c4_witness :
    updatePackages
        (updatePackages ⟨some [("axios", "^0.21.1")], none, none⟩
          [("axios", "0.21.4")]).manifest
        [("axios", "0.21.4")] =
      updatePackages ⟨some [("axios", "^0.21.1")], none, none⟩
        [("axios", "0.21.4")] :=
  c4_second_run_reports_same ⟨some [("axios", "^0.21.1")], none, none⟩
    [("axios", "0.21.4")] (by decide)

end PackageAutomator
